import Mathlib

/-!
Verification of the `storybook` CLI fragment: the `add` addon workflow
(`getVersionSpecifier`, `checkInstalled`, `isCoreAddon`, `isValidVersion`,
version resolution and the install/persist/postinstall pipeline) and the
Vue3/Vite preset's `viteFinal`.  External collaborators (package manager,
config reader/writer, the `semver` library, vite's `mergeConfig`,
`hasVitePlugins`) are modelled explicitly; side effects of `add` are
captured as an event trace.
-/

namespace Storybook

/-- Split a character list at the first occurrence of `sep`:
`some (before, after)` when `sep` occurs, `none` otherwise. -/
def splitAtFirstChar (sep : Char) : List Char → Option (List Char × List Char)
  | [] => none
  | c :: rest =>
    if c = sep then some ([], rest)
    else (splitAtFirstChar sep rest).map (fun p => (c :: p.1, p.2))

/-- Embedding of `getVersionSpecifier` (src/unnamed/part_002, lines 35-41):
runs the anchored regex `^(@{0,1}[^@]+)(?:@(.+))?$` on the input and returns
`[groups[1], groups[2]]`; when the regex does not match it falls back to
`[addon, undefined]`.  Group 1 is an optional leading `@` followed by one or
more non-`@` characters (so the split is at the first `@` after the optional
scope marker), and group 2 — when the optional part matches — is the
non-empty remainder after that `@`. -/
def getVersionSpecifier (addon : String) : String × Option String :=
  match addon.data with
  | [] => (addon, none)
  | c :: rest =>
    let scope := c = '@'
    let body := if scope then rest else c :: rest
    match body with
    | [] => (addon, none)
    | b :: _ =>
      if b = '@' then (addon, none)
      else
        match splitAtFirstChar '@' body with
        | none => (addon, none)
        | some (t, restv) =>
          if restv.isEmpty then (addon, none)
          else (String.mk (if scope then '@' :: t else t), some (String.mk restv))

/-- The body of a package name after stripping an optional leading scope `@`. -/
def scopeBody : List Char → List Char
  | [] => []
  | c :: rest => if c = '@' then rest else c :: rest

/-- A semver numeric identifier: digits only, no leading zero except `0` itself. -/
def isNumericIdent : List Char → Bool
  | [] => false
  | ['0'] => true
  | c :: cs => (c != '0') && (c :: cs).all Char.isDigit

def isAlnumHyphen (c : Char) : Bool := c.isAlphanum || c == '-'

/-- A semver prerelease/build identifier: non-empty, alphanumerics and hyphens. -/
def isIdentChunk : List Char → Bool
  | [] => false
  | cs => cs.all isAlnumHyphen

/-- Split a character list on `.` into its dot-separated chunks. -/
def dotSplitAux : List Char → List Char → List (List Char)
  | [], acc => [acc.reverse]
  | c :: rest, acc =>
    if c = '.' then acc.reverse :: dotSplitAux rest [] else dotSplitAux rest (c :: acc)

/-- `major.minor.patch`, each part a numeric identifier. -/
def versionCoreValid (cs : List Char) : Bool :=
  match dotSplitAux cs [] with
  | [ma, mi, pa] => isNumericIdent ma && isNumericIdent mi && isNumericIdent pa
  | _ => false

/-- Dot-separated list of non-empty identifiers (prerelease or build metadata). -/
def identListValid (cs : List Char) : Bool :=
  (dotSplitAux cs []).all isIdentChunk

/-- Modelled from the spec: `SemVer.valid` of the external `semver` package
(imported by src/unnamed/part_002 and absent from src/), per the spec a test
for "a valid semantic version": `major.minor.patch` with optional
`-prerelease` and `+build` suffixes; a bare major such as `7` or a tag such
as `next` is not a valid semantic version. -/
def semverValid (s : String) : Bool :=
  let cs := s.data
  match splitAtFirstChar '+' cs with
  | none =>
    match splitAtFirstChar '-' cs with
    | none => versionCoreValid cs
    | some (core, pre) => versionCoreValid core && identListValid pre
  | some (beforeBuild, build) =>
    (match splitAtFirstChar '-' beforeBuild with
     | none => versionCoreValid beforeBuild
     | some (core, pre) => versionCoreValid core && identListValid pre)
    && identListValid build

/-- Embedding of `isValidVersion` (src/unnamed/part_002, lines 147-149):
`SemVer.valid(version) || version.match(/^\d+$/)`. -/
def isValidVersion (version : String) : Bool :=
  semverValid version || ((!version.data.isEmpty) && version.data.all Char.isDigit)

end Storybook

namespace Storybook

example : getVersionSpecifier "@storybook/addon-docs@7.0.1"
    = ("@storybook/addon-docs", some "7.0.1") := by decide
example : getVersionSpecifier "name" = ("name", none) := by decide
example : getVersionSpecifier "@scope/name@next" = ("@scope/name", some "next") := by decide
example : getVersionSpecifier "a@b@c" = ("a", some "b@c") := by decide
example : getVersionSpecifier "" = ("", none) := by decide
example : getVersionSpecifier "a@" = ("a@", none) := by decide
example : getVersionSpecifier "@" = ("@", none) := by decide
example : getVersionSpecifier "@@x" = ("@@x", none) := by decide

example : isValidVersion "1.2.3" = true := by decide
example : isValidVersion "7" = true := by decide
example : isValidVersion "next" = false := by decide
example : isValidVersion "7.0.1" = true := by decide
example : semverValid "7" = false := by decide
example : semverValid "1.2.3-alpha.1" = true := by decide
example : semverValid "1.2.3-alpha-beta+build.5" = true := by decide
example : semverValid "01.2.3" = false := by decide

end Storybook

namespace Storybook

/-- An entry of the `addons` array of a main config: a plain string or an
object whose `name` field may be absent (`none`). -/
inductive AddonEntry
  | str (s : String)
  | obj (name : Option String)
deriving DecidableEq

/-- The raw main-config module returned by `requireMain` (`serverRequire ?? {}`):
the only field the workflow reads is `addons`, which may be absent. -/
structure MainModule where
  addons : Option (List AddonEntry)
deriving DecidableEq

/-- `typeof entry === 'string' ? entry : entry.name` from `checkInstalled`. -/
def entryName : AddonEntry → Option String
  | .str s => some s
  | .obj n => n

/-- JavaScript `s.endsWith(pat)`: `s` ends with the suffix `pat`. -/
def strEndsWith (s pat : String) : Bool :=
  pat.data.isSuffixOf s.data

/-- The predicate of the `find` callback in `checkInstalled`:
`name?.endsWith(addonName)`, where a missing `name` is falsy. -/
def entryMatches (addonName : String) (e : AddonEntry) : Bool :=
  match entryName e with
  | some n => strEndsWith n addonName
  | none => false

/-- Embedding of `checkInstalled` (src/unnamed/part_002, lines 50-56):
`!!main.addons?.find(entry => name?.endsWith(addonName))`; an absent
`addons` field short-circuits to `undefined`, hence `false`. -/
def checkInstalled (addonName : String) (main : MainModule) : Bool :=
  match main.addons with
  | none => false
  | some entries => entries.any (entryMatches addonName)

/-- Embedding of `isCoreAddon` (src/unnamed/part_002, line 58):
`Object.hasOwn(versions, addonName)`.  The `versions` table is external
(from `storybook/internal/common`); only its key set matters here, so it
is passed in as the list of core addon package names. -/
def isCoreAddon (coreVersions : List String) (addonName : String) : Bool :=
  coreVersions.contains addonName

/-- JavaScript falsiness of a `string | undefined` value:
`undefined` and the empty string are falsy. -/
def jsFalsy : Option String → Bool
  | none => true
  | some s => s = ""

/-- JavaScript `a || b` on `string | undefined` values. -/
def jsOr (a b : Option String) : Option String :=
  if jsFalsy a then b else a

/-- Embedding of the version-resolution block of `add`
(src/unnamed/part_002, lines 115-124):
`let version = inputVersion; if (!version && isCoreAddon(addonName) &&
storybookVersion) version = storybookVersion; if (!version) version =
await packageManager.latestVersion(addonName);`. -/
def resolveVersion (coreVersions : List String) (addonName : String)
    (inputVersion storybookVersion : Option String) (latest : String) : String :=
  let v1 := inputVersion
  let v2 :=
    if jsFalsy v1 && isCoreAddon coreVersions addonName && !(jsFalsy storybookVersion)
    then storybookVersion else v1
  if jsFalsy v2 then latest else v2.getD ""

/-- The `addonWithVersion` formatting of `add` (src/unnamed/part_002,
lines 132-134): `isValidVersion(version) ? name@^version : name@version`. -/
def formatAddonSpec (addonName version : String) : String :=
  if isValidVersion version then addonName ++ "@^" ++ version
  else addonName ++ "@" ++ version

/-- The duplicate-addon message logged by `add` (lines 106-109). -/
def dupMessage (addonName mainConfigPath : String) : String :=
  "The Storybook Addon " ++ addonName ++ " is already present in "
    ++ mainConfigPath ++ "; Its configuration will be skipped."

/-- The compatibility warning logged by `add` (lines 126-130). -/
def compatWarning (addonName : String) : String :=
  "The version of " ++ addonName ++ " you are installing is not the same as the version of Storybook you are using. This may lead to unexpected behavior."

/-- Observable side effects of one `add` invocation, in order. -/
inductive Event
  | logError (msg : String)
  | log (msg : String)
  | logWarn (msg : String)
  | install (spec : String)
  | appendToAddons (value : String)
  | writeConfig
  | postinstall (addonName : String)
deriving DecidableEq

/-- Uncaught errors an `add` invocation can terminate with. -/
inductive AddError
  | noConfigDir
  | installFailed
  | writeFailed
deriving DecidableEq

/-- The environment of one `add` invocation: the behaviour of the external
collaborators (`getStorybookInfo`, `serverRequire`,
`getCoercedStorybookVersion`, the package manager, the `versions` table)
and whether the fallible external calls succeed. -/
structure Env where
  inferredConfigDir : Option String
  mainConfig : Option String
  mainModule : MainModule
  storybookVersion : Option String
  latest : String → String
  coreVersions : List String
  installFails : Bool
  writeFails : Bool

/-- CLI options of `add` (src/unnamed/part_002, lines 70-74). -/
structure CLIOptions where
  packageManager : Option String
  configDir : Option String
  skipPostinstall : Bool

/-- Embedding of `add` (src/unnamed/part_002, lines 79-146) as a trace of
events plus an optional uncaught error.  The control flow follows the
source line by line: parse the specifier, compute
`configDir = userSpecifiedConfigDir || inferredConfigDir || '.storybook'`,
throw if `configDir` is `undefined`, soft-return when the main config path
is missing or the addon is already present, resolve the version, warn on a
core-addon version mismatch, install, append to `addons`, write the config,
and run the post-install hook for core addons unless skipped. -/
def add (env : Env) (addon : String) (opts : CLIOptions) :
    List Event × Option AddError :=
  let parsed := getVersionSpecifier addon
  let addonName := parsed.1
  let inputVersion := parsed.2
  let configDir := jsOr opts.configDir (jsOr env.inferredConfigDir (some ".storybook"))
  if configDir = none then
    ([], some AddError.noConfigDir)
  else
    match env.mainConfig with
    | none => ([Event.logError "Unable to find Storybook main.js config"], none)
    | some mainConfigPath =>
      if checkInstalled addonName env.mainModule then
        ([Event.logError (dupMessage addonName mainConfigPath)], none)
      else
        let version := resolveVersion env.coreVersions addonName inputVersion
          env.storybookVersion (env.latest addonName)
        let warnEvents : List Event :=
          if isCoreAddon env.coreVersions addonName && (some version != env.storybookVersion)
          then [Event.logWarn (compatWarning addonName)] else []
        let spec := formatAddonSpec addonName version
        let pre := Event.log ("Verifying " ++ addonName) :: warnEvents
          ++ [Event.log ("Installing " ++ spec), Event.install spec]
        if env.installFails then (pre, some AddError.installFailed)
        else
          let pre2 := pre ++
            [Event.log ("Adding " ++ addon ++ " to the addons field in " ++ mainConfigPath ++ "."),
             Event.appendToAddons addonName, Event.writeConfig]
          if env.writeFails then (pre2, some AddError.writeFailed)
          else
            let post : List Event :=
              if !opts.skipPostinstall && isCoreAddon env.coreVersions addonName
              then [Event.postinstall addonName] else []
            (pre2 ++ post, none)

/-- The package spec of an install event, `none` for every other event. -/
def installSpec : Event → Option String
  | Event.install s => some s
  | _ => none

/-- The value of an append-to-addons event, `none` for every other event. -/
def appendValue : Event → Option String
  | Event.appendToAddons v => some v
  | _ => none

/-- The addon name of a post-install event, `none` for every other event. -/
def postName : Event → Option String
  | Event.postinstall n => some n
  | _ => none

def installEvents (t : List Event) : List String := t.filterMap installSpec

def appendEvents (t : List Event) : List String := t.filterMap appendValue

def postEvents (t : List Event) : List String := t.filterMap postName

def isWriteEvent : Event → Bool
  | Event.writeConfig => true
  | _ => false

def isInstallEvent : Event → Bool
  | Event.install _ => true
  | _ => false

def writeCount (t : List Event) : Nat := (t.filter isWriteEvent).length

/-- Index of the first event satisfying `p`, if any. -/
def firstIdx (p : Event → Bool) : List Event → Option Nat
  | [] => none
  | e :: t => if p e then some 0 else (firstIdx p t).map (fun i => i + 1)

/-- A vite plugin value: its registered `name` plus an opaque payload
distinguishing instances. -/
structure VitePlugin where
  name : String
  payload : Nat
deriving DecidableEq

/-- The slice of a vite config `viteFinal` touches: the optional `plugins`
array, the `resolve.alias` mapping, and a stand-in association list for
every other caller-supplied field. -/
structure ViteConfig where
  plugins : Option (List VitePlugin)
  aliasEntries : List (String × String)
  otherFields : List (String × String)
deriving DecidableEq

/-- Modelled from the spec: `hasVitePlugins` of `@storybook/builder-vite`
(imported by src/unnamed/part_001 and absent from src/), per the spec a
"name-based membership test" of the given plugin names in the plugin list. -/
def hasVitePlugins (plugins : List VitePlugin) (names : List String) : Bool :=
  plugins.any (fun p => names.contains p.name)

/-- Modelled from the spec: the default export of `@vitejs/plugin-vue`
applied with no arguments — a plugin instance registered as `vite:vue`. -/
def vuePluginDefault : VitePlugin := { name := "vite:vue", payload := 0 }

/-- Modelled from the spec: `vueComponentMeta()` of
`./plugins/vue-component-meta` (absent from src/), the fixed
"component metadata" plugin appended unconditionally. -/
def vueComponentMetaPlugin : VitePlugin :=
  { name := "storybook:vue-component-meta-plugin", payload := 0 }

/-- Update an association list with the overlay entries: keys of the
overlay are overwritten, all other entries are preserved, overlay entries
are appended. -/
def overrideEntries (base overlay : List (String × String)) : List (String × String) :=
  base.filter (fun kv => !(overlay.any (fun ov => ov.1 == kv.1))) ++ overlay

/-- Modelled from the spec: vite's `mergeConfig` (external), per the spec a
non-destructive merge — caller plugins are preserved and the plugin list is
extended, overlay aliases are added or overwritten, and every other
caller-supplied field is preserved. -/
def mergeConfig (base overlay : ViteConfig) : ViteConfig :=
  { plugins := some (base.plugins.getD [] ++ overlay.plugins.getD []),
    aliasEntries := overrideEntries base.aliasEntries overlay.aliasEntries,
    otherFields := overrideEntries base.otherFields overlay.otherFields }

/-- Embedding of `viteFinal` (src/unnamed/part_001, lines 16-39): push the
default vue plugin when `config.plugins ?? []` has no plugin named
`vite:vue`, always push the component-meta plugin, and merge the caller
config with `plugins` and the `vue` alias
`vue/dist/vue.esm-bundler.js`. -/
def viteFinal (config : ViteConfig) : ViteConfig :=
  let plugins : List VitePlugin :=
    if hasVitePlugins (config.plugins.getD []) ["vite:vue"] then []
    else [vuePluginDefault]
  let plugins2 := plugins ++ [vueComponentMetaPlugin]
  mergeConfig config
    { plugins := some plugins2,
      aliasEntries := [("vue", "vue/dist/vue.esm-bundler.js")],
      otherFields := [] }

end Storybook

namespace Storybook

/-- A concrete environment: clean project, main config present, the addon
not yet installed, `@storybook/addon-docs` in the core-versions table. -/
def envDocs : Env :=
  { inferredConfigDir := some ".storybook"
    mainConfig := some "./.storybook/main.ts"
    mainModule := { addons := some [AddonEntry.str "@storybook/addon-links"] }
    storybookVersion := some "7.0.0"
    latest := fun _ => "9.9.9"
    coreVersions := ["@storybook/addon-docs", "@storybook/addon-essentials"]
    installFails := false
    writeFails := false }

/-- A concrete environment with no config-dir flag, no inferrable config
directory and no main config. -/
def envBare : Env :=
  { inferredConfigDir := none
    mainConfig := none
    mainModule := { addons := none }
    storybookVersion := none
    latest := fun _ => "1.0.0"
    coreVersions := []
    installFails := false
    writeFails := false }

def optsPlain : CLIOptions :=
  { packageManager := none, configDir := none, skipPostinstall := false }

/-- A concrete environment whose main config already lists the addon. -/
def envDup : Env :=
  { envDocs with mainModule := { addons := some [AddonEntry.str "@storybook/addon-docs"] } }

end Storybook

namespace Storybook

lemma jsOr_ne_none (a b : Option String) (hb : b ≠ none) : jsOr a b ≠ none := by
  unfold jsOr
  split
  · exact hb
  · rename_i hfa
    cases a with
    | none => simp [jsFalsy] at hfa
    | some s => exact Option.some_ne_none s

lemma configDirValue_ne_none (a b : Option String) :
    jsOr a (jsOr b (some ".storybook")) ≠ none :=
  jsOr_ne_none _ _ (jsOr_ne_none _ _ (Option.some_ne_none _))

/-- C10: `checkInstalled` treats malformed configs as "not installed": an
absent `addons` field yields `false`, and so does any `addons` list all of
whose entries are objects without a `name` field.  (Totality — "never
throws" — holds by construction: the embedding is a total function.) -/
theorem checkInstalled_malformed_false :
    (∀ name : String, checkInstalled name { addons := none } = false)
    ∧ (∀ (name : String) (entries : List AddonEntry),
        (∀ e ∈ entries, entryName e = none) →
        checkInstalled name { addons := some entries } = false) := by
  constructor
  · intro name; rfl
  · intro name entries h
    unfold checkInstalled
    simp only [List.any_eq_false]
    intro e he
    simp [entryMatches, h e he]

/-- Witness for C10 at a concrete malformed config. -/
theorem checkInstalled_malformed_false_witness :
    checkInstalled "@storybook/addon-docs"
      { addons := some [AddonEntry.obj none, AddonEntry.obj none] } = false :=
  checkInstalled_malformed_false.2 _ _
    (by intro e he; simp only [List.mem_cons, List.mem_singleton, List.not_mem_nil,
          or_false] at he; rcases he with h | h <;> subst h <;> rfl)

/-- C5: the install spec carries a caret exactly when `isValidVersion`
accepts the resolved version; `isValidVersion` accepts `1.2.3` and the bare
major `7` and rejects the tag `next`; for `next` the spec is the literal
`name@next`. -/
theorem formatAddonSpec_caret_iff :
    (∀ n v : String, formatAddonSpec n v = n ++ "@^" ++ v ↔ isValidVersion v = true)
    ∧ isValidVersion "1.2.3" = true
    ∧ isValidVersion "7" = true
    ∧ isValidVersion "next" = false
    ∧ (∀ n : String, formatAddonSpec n "next" = n ++ "@next") := by
  refine ⟨?_, by decide, by decide, by decide, ?_⟩
  · intro n v
    constructor
    · intro h
      by_contra hv
      rw [Bool.not_eq_true] at hv
      rw [formatAddonSpec, hv] at h
      simp only [Bool.false_eq_true, if_false] at h
      have hd := congrArg String.data h
      simp only [String.data_append] at hd
      rw [List.append_assoc, List.append_assoc] at hd
      have hd2 := List.append_cancel_left hd
      simp only [List.cons_append, List.nil_append] at hd2
      have htail : v.data = '^' :: v.data := by
        injection hd2
      have hlen := congrArg List.length htail
      simp at hlen
    · intro hv
      rw [formatAddonSpec, hv]
      simp
  · intro n
    have hnv : isValidVersion "next" = false := by decide
    rw [formatAddonSpec, hnv]
    simp only [Bool.false_eq_true, if_false]
    rw [String.append_assoc]
    rfl

/-- Witness for C5: the caret formatting at concrete inputs. -/
theorem formatAddonSpec_caret_iff_witness :
    formatAddonSpec "@storybook/addon-docs" "1.2.3" = "@storybook/addon-docs" ++ "@^" ++ "1.2.3" :=
  (formatAddonSpec_caret_iff.1 _ _).mpr (by decide)

/-- C2 (amended): `add` can never terminate with the no-config-directory
error: `configDir = userSpecifiedConfigDir || inferredConfigDir ||
'.storybook'` is always a defined string, so the
`typeof configDir === 'undefined'` branch that would throw is dead code. -/
theorem add_never_noConfigDir (env : Env) (addon : String) (opts : CLIOptions) :
    (add env addon opts).2 ≠ some AddError.noConfigDir := by
  unfold add
  rw [if_neg (by simpa using configDirValue_ne_none opts.configDir env.inferredConfigDir)]
  cases env.mainConfig with
  | none => simp
  | some p =>
    simp only []
    split
    · simp
    · split
      · simp
      · split
        · simp
        · simp

/-- Counterexample for C2 as stated: with no `--config-dir` flag and no
inferrable config directory the error branch is not taken — `add` returns
normally (here: logging the missing-main-config message), with no error. -/
theorem add_noConfigDir_cex :
    add envBare "@storybook/addon-docs" optsPlain
      = ([Event.logError "Unable to find Storybook main.js config"], none)
    ∧ optsPlain.configDir = none ∧ envBare.inferredConfigDir = none := by
  refine ⟨?_, rfl, rfl⟩
  rfl

/-- Witness for C2 at a concrete invocation. -/
theorem add_never_noConfigDir_witness :
    (add envBare "@storybook/addon-docs" optsPlain).2 ≠ some AddError.noConfigDir :=
  add_never_noConfigDir envBare "@storybook/addon-docs" optsPlain

/-- C6: when the loaded main module's `addons` list contains an entry whose
name ends with the parsed addon name (a plain string entry or an object
entry), `add` is an idempotent no-op: it returns normally with the
duplicate log message as its only effect — in particular no install, no
config write, no post-install. -/
theorem add_duplicate_noop (env : Env) (addon : String) (opts : CLIOptions)
    (p : String) (l : List AddonEntry) (e : AddonEntry)
    (hmc : env.mainConfig = some p)
    (hl : env.mainModule.addons = some l) (he : e ∈ l)
    (hm : entryMatches (getVersionSpecifier addon).1 e = true) :
    add env addon opts
      = ([Event.logError (dupMessage (getVersionSpecifier addon).1 p)], none) := by
  have hci : checkInstalled (getVersionSpecifier addon).1 env.mainModule = true := by
    unfold checkInstalled
    rw [hl]
    exact List.any_eq_true.mpr ⟨e, he, hm⟩
  unfold add
  rw [if_neg (by simpa using configDirValue_ne_none opts.configDir env.inferredConfigDir)]
  rw [hmc]
  simp only [hci, if_true]

/-- Witness for C6: a concrete config already listing the addon. -/
theorem add_duplicate_noop_witness :
    add envDup "@storybook/addon-docs@7.0.1" optsPlain
      = ([Event.logError (dupMessage "@storybook/addon-docs" "./.storybook/main.ts")], none) :=
  add_duplicate_noop envDup "@storybook/addon-docs@7.0.1" optsPlain
    "./.storybook/main.ts" [AddonEntry.str "@storybook/addon-docs"]
    (AddonEntry.str "@storybook/addon-docs") rfl rfl (List.mem_singleton.mpr rfl) (by decide)

/-- C4: the version-resolution block of `add` follows the strict
precedence: an explicit specifier version is used verbatim; otherwise a
core addon with an available coerced Storybook version uses that version;
otherwise the package manager's `latestVersion` result is used.  (The two
disequality hypotheses record that specifier versions and coerced Storybook
versions are never the empty string — the regex group and the coercion both
produce non-empty strings.) -/
theorem resolveVersion_precedence (cv : List String) (name : String)
    (iv sbv : Option String) (latest : String)
    (hiv : iv ≠ some "") (hsbv : sbv ≠ some "") :
    (∀ v, iv = some v → resolveVersion cv name iv sbv latest = v)
    ∧ (iv = none → isCoreAddon cv name = true → ∀ sv, sbv = some sv →
        resolveVersion cv name iv sbv latest = sv)
    ∧ (iv = none → (isCoreAddon cv name = false ∨ sbv = none) →
        resolveVersion cv name iv sbv latest = latest) := by
  refine ⟨?_, ?_, ?_⟩
  · intro v hv
    subst hv
    have hvne : v ≠ "" := by intro h; exact hiv (by rw [h])
    simp [resolveVersion, jsFalsy, hvne]
  · intro hivn hcore sv hsv
    subst hivn hsv
    have hsvne : sv ≠ "" := by intro h; exact hsbv (by rw [h])
    simp [resolveVersion, jsFalsy, hcore, hsvne]
  · intro hivn hrest
    subst hivn
    rcases hrest with hcore | hsbn
    · simp [resolveVersion, jsFalsy, hcore]
    · subst hsbn
      simp [resolveVersion, jsFalsy]

/-- Witness for C4: a core addon with no explicit version resolves to the
coerced Storybook version. -/
theorem resolveVersion_precedence_witness :
    resolveVersion ["@storybook/addon-docs"] "@storybook/addon-docs"
      none (some "7.0.0") "9.9.9" = "7.0.0" :=
  (resolveVersion_precedence ["@storybook/addon-docs"] "@storybook/addon-docs"
      none (some "7.0.0") "9.9.9" (by decide) (by decide)).2.1
    rfl (by decide) "7.0.0" rfl

/-- C1 (amended): on any project whose main config exists, does not yet
contain `@storybook/addon-docs`, and whose core-addon table lists it,
`add "@storybook/addon-docs@7.0.1"` performs exactly one install with
package spec `@storybook/addon-docs@^7.0.1` (the code carets the valid
semver version `7.0.1`), exactly one config write appending the bare name
`@storybook/addon-docs` to `addons`, and exactly one post-install
invocation unless `skipPostinstall` is set, returning without error. -/
theorem add_docs_end_to_end (env : Env) (opts : CLIOptions) (p : String)
    (hmc : env.mainConfig = some p)
    (hni : checkInstalled "@storybook/addon-docs" env.mainModule = false)
    (hcore : isCoreAddon env.coreVersions "@storybook/addon-docs" = true)
    (hif : env.installFails = false) (hwf : env.writeFails = false) :
    installEvents (add env "@storybook/addon-docs@7.0.1" opts).1
        = ["@storybook/addon-docs@^7.0.1"]
    ∧ appendEvents (add env "@storybook/addon-docs@7.0.1" opts).1
        = ["@storybook/addon-docs"]
    ∧ writeCount (add env "@storybook/addon-docs@7.0.1" opts).1 = 1
    ∧ postEvents (add env "@storybook/addon-docs@7.0.1" opts).1
        = (if opts.skipPostinstall then [] else ["@storybook/addon-docs"])
    ∧ (add env "@storybook/addon-docs@7.0.1" opts).2 = none := by
  have hparse : getVersionSpecifier "@storybook/addon-docs@7.0.1"
      = ("@storybook/addon-docs", some "7.0.1") := by decide
  have hrv : resolveVersion env.coreVersions "@storybook/addon-docs" (some "7.0.1")
      env.storybookVersion (env.latest "@storybook/addon-docs") = "7.0.1" := by
    simp [resolveVersion, jsFalsy]
  have hfmt : formatAddonSpec "@storybook/addon-docs" "7.0.1"
      = "@storybook/addon-docs@^7.0.1" := by decide
  unfold add
  rw [if_neg (by simpa using configDirValue_ne_none opts.configDir env.inferredConfigDir)]
  rw [hmc]
  simp only [hparse, hni, Bool.false_eq_true, if_false, hrv, hfmt, hif, hwf, hcore,
    Bool.and_true]
  cases hw : (isCoreAddon env.coreVersions "@storybook/addon-docs"
      && (some "7.0.1" != env.storybookVersion)) <;>
    cases hs : opts.skipPostinstall <;>
      simp [installEvents, appendEvents, postEvents, writeCount,
        installSpec, appendValue, postName, isWriteEvent, hw, hs]

/-- Counterexample for C1 as stated: on a concrete conforming project the
single install call's package spec is `@storybook/addon-docs@^7.0.1`, not
the claimed verbatim string `@storybook/addon-docs@7.0.1`. -/
theorem add_docs_caret_cex :
    Event.install "@storybook/addon-docs@7.0.1"
        ∉ (add envDocs "@storybook/addon-docs@7.0.1" optsPlain).1
    ∧ installEvents (add envDocs "@storybook/addon-docs@7.0.1" optsPlain).1
        = ["@storybook/addon-docs@^7.0.1"] := by
  decide

/-- Witness for C1 at the concrete clean project. -/
theorem add_docs_end_to_end_witness :
    installEvents (add envDocs "@storybook/addon-docs@7.0.1" optsPlain).1
        = ["@storybook/addon-docs@^7.0.1"]
    ∧ appendEvents (add envDocs "@storybook/addon-docs@7.0.1" optsPlain).1
        = ["@storybook/addon-docs"]
    ∧ writeCount (add envDocs "@storybook/addon-docs@7.0.1" optsPlain).1 = 1
    ∧ postEvents (add envDocs "@storybook/addon-docs@7.0.1" optsPlain).1
        = (if optsPlain.skipPostinstall then [] else ["@storybook/addon-docs"])
    ∧ (add envDocs "@storybook/addon-docs@7.0.1" optsPlain).2 = none :=
  add_docs_end_to_end envDocs optsPlain "./.storybook/main.ts" rfl (by decide)
    (by decide) rfl rfl

/-- The addon name `add` parses out of its specifier argument. -/
def addonNameOf (addon : String) : String := (getVersionSpecifier addon).1

/-- The version `add` resolves for a given environment and specifier. -/
def resolvedVersion (env : Env) (addon : String) : String :=
  resolveVersion env.coreVersions (addonNameOf addon) (getVersionSpecifier addon).2
    env.storybookVersion (env.latest (addonNameOf addon))

/-- C9: in a run that passes the duplicate check, the compatibility warning
is logged exactly when the addon is core and the resolved version differs
from the detected Storybook version, and it never blocks the install, the
config write, or the (core, non-skipped) post-install. -/
theorem add_compat_warning (env : Env) (addon : String) (opts : CLIOptions)
    (p : String) (hmc : env.mainConfig = some p)
    (hni : checkInstalled (addonNameOf addon) env.mainModule = false)
    (hif : env.installFails = false) (hwf : env.writeFails = false) :
    ((∃ m, Event.logWarn m ∈ (add env addon opts).1) ↔
      (isCoreAddon env.coreVersions (addonNameOf addon) = true
        ∧ some (resolvedVersion env addon) ≠ env.storybookVersion))
    ∧ Event.install (formatAddonSpec (addonNameOf addon) (resolvedVersion env addon))
        ∈ (add env addon opts).1
    ∧ Event.writeConfig ∈ (add env addon opts).1
    ∧ (opts.skipPostinstall = false →
        isCoreAddon env.coreVersions (addonNameOf addon) = true →
        Event.postinstall (addonNameOf addon) ∈ (add env addon opts).1) := by
  unfold addonNameOf at hni
  unfold resolvedVersion
  unfold addonNameOf
  unfold add
  rw [if_neg (by simpa using configDirValue_ne_none opts.configDir env.inferredConfigDir)]
  rw [hmc]
  simp only [hni, Bool.false_eq_true, if_false, hif, hwf]
  cases hw : (isCoreAddon env.coreVersions (getVersionSpecifier addon).1
      && (some (resolveVersion env.coreVersions (getVersionSpecifier addon).1
          (getVersionSpecifier addon).2 env.storybookVersion
          (env.latest (getVersionSpecifier addon).1)) != env.storybookVersion))
  · refine ⟨?_, by simp, by simp, ?_⟩
    · refine iff_of_false ?_ ?_
      · rintro ⟨m, hm⟩
        simp at hm
      · rintro ⟨h1, h2⟩
        rw [h1] at hw
        simp only [Bool.true_and, bne_eq_false_iff_eq] at hw
        exact h2 hw
    · intro hs hcore
      simp [hs, hcore]
  · have hw2 := hw
    rw [Bool.and_eq_true] at hw2
    refine ⟨?_, by simp, by simp, ?_⟩
    · refine iff_of_true ?_ ?_
      · exact ⟨compatWarning (getVersionSpecifier addon).1, by simp [hw]⟩
      · exact ⟨hw2.1, bne_iff_ne.mp hw2.2⟩
    · intro hs hcore
      simp [hs, hcore]

/-- Witness for C9 at the concrete clean project (`7.0.1` vs `7.0.0`). -/
theorem add_compat_warning_witness :
    ((∃ m, Event.logWarn m ∈ (add envDocs "@storybook/addon-docs@7.0.1" optsPlain).1) ↔
      (isCoreAddon envDocs.coreVersions (addonNameOf "@storybook/addon-docs@7.0.1") = true
        ∧ some (resolvedVersion envDocs "@storybook/addon-docs@7.0.1")
            ≠ envDocs.storybookVersion))
    ∧ Event.install (formatAddonSpec (addonNameOf "@storybook/addon-docs@7.0.1")
          (resolvedVersion envDocs "@storybook/addon-docs@7.0.1"))
        ∈ (add envDocs "@storybook/addon-docs@7.0.1" optsPlain).1
    ∧ Event.writeConfig ∈ (add envDocs "@storybook/addon-docs@7.0.1" optsPlain).1
    ∧ (optsPlain.skipPostinstall = false →
        isCoreAddon envDocs.coreVersions (addonNameOf "@storybook/addon-docs@7.0.1") = true →
        Event.postinstall (addonNameOf "@storybook/addon-docs@7.0.1")
          ∈ (add envDocs "@storybook/addon-docs@7.0.1" optsPlain).1) :=
  add_compat_warning envDocs "@storybook/addon-docs@7.0.1" optsPlain
    "./.storybook/main.ts" rfl (by decide) rfl rfl

/-- C7: in every execution of `add`, the package install strictly precedes
the config write (whenever a write happens at all, an install happened at a
strictly earlier position of the trace), and if the install step fails the
`addons` array is never appended to and the config is never written. -/
theorem add_install_precedes_write (env : Env) (addon : String) (opts : CLIOptions) :
    (∀ j, firstIdx isWriteEvent (add env addon opts).1 = some j →
      ∃ i, firstIdx isInstallEvent (add env addon opts).1 = some i ∧ i < j)
    ∧ (env.installFails = true →
        Event.writeConfig ∉ (add env addon opts).1
        ∧ appendEvents (add env addon opts).1 = []) := by
  unfold add
  rw [if_neg (by simpa using configDirValue_ne_none opts.configDir env.inferredConfigDir)]
  cases env.mainConfig with
  | none =>
    refine ⟨?_, ?_⟩
    · intro j h
      simp [firstIdx, isWriteEvent] at h
    · intro _
      simp [appendEvents, appendValue]
  | some p =>
    simp only []
    split
    · refine ⟨?_, ?_⟩
      · intro j h
        simp [firstIdx, isWriteEvent] at h
      · intro _
        simp [appendEvents, appendValue]
    · cases hw : (isCoreAddon env.coreVersions (getVersionSpecifier addon).1
          && (some (resolveVersion env.coreVersions (getVersionSpecifier addon).1
              (getVersionSpecifier addon).2 env.storybookVersion
              (env.latest (getVersionSpecifier addon).1)) != env.storybookVersion)) <;>
        cases hif : env.installFails <;>
          cases hwf : env.writeFails <;>
            refine ⟨?_, ?_⟩ <;>
              simp [hw, hif, hwf, firstIdx, isWriteEvent, isInstallEvent,
                appendEvents, appendValue]

/-- Witness for C7 at the concrete clean project: the write is at trace
position 6, the install strictly earlier. -/
theorem add_install_precedes_write_witness :
    ∃ i, firstIdx isInstallEvent
        (add envDocs "@storybook/addon-docs@7.0.1" optsPlain).1 = some i ∧ i < 6 :=
  (add_install_precedes_write envDocs "@storybook/addon-docs@7.0.1" optsPlain).1
    6 (by decide)

/-- C8: `viteFinal` appends the default vue plugin exactly when no caller
plugin is named `vite:vue`, always appends the component-meta plugin,
preserves every caller plugin, alias and other field, and only extends the
plugin list and adds or overwrites the `vue` alias. -/
theorem viteFinal_nondestructive (config : ViteConfig) :
    ((∀ q ∈ config.plugins.getD [], q.name ≠ "vite:vue") →
      (viteFinal config).plugins
        = some (config.plugins.getD [] ++ [vuePluginDefault, vueComponentMetaPlugin]))
    ∧ ((∃ q ∈ config.plugins.getD [], q.name = "vite:vue") →
      (viteFinal config).plugins
        = some (config.plugins.getD [] ++ [vueComponentMetaPlugin]))
    ∧ vueComponentMetaPlugin ∈ (viteFinal config).plugins.getD []
    ∧ (∀ q ∈ config.plugins.getD [], q ∈ (viteFinal config).plugins.getD [])
    ∧ ("vue", "vue/dist/vue.esm-bundler.js") ∈ (viteFinal config).aliasEntries
    ∧ (∀ k v, k ≠ "vue" →
        (((k, v) ∈ (viteFinal config).aliasEntries) ↔ (k, v) ∈ config.aliasEntries))
    ∧ (viteFinal config).otherFields = config.otherFields := by
  have hvp : ∀ (l : List VitePlugin), hasVitePlugins l ["vite:vue"]
      = l.any (fun p => p.name = "vite:vue") := by
    intro l
    unfold hasVitePlugins
    congr 1
    funext p
    simp [List.contains_cons]
  refine ⟨?_, ?_, ?_, ?_, ?_, ?_, ?_⟩
  · intro h
    have : hasVitePlugins (config.plugins.getD []) ["vite:vue"] = false := by
      rw [hvp, List.any_eq_false]
      intro q hq
      simp [h q hq]
    simp [viteFinal, mergeConfig, this]
  · rintro ⟨q, hq, hname⟩
    have : hasVitePlugins (config.plugins.getD []) ["vite:vue"] = true := by
      rw [hvp, List.any_eq_true]
      exact ⟨q, hq, by simp [hname]⟩
    simp [viteFinal, mergeConfig, this]
  · by_cases hc : hasVitePlugins (config.plugins.getD []) ["vite:vue"] <;>
      simp [viteFinal, mergeConfig, hc]
  · intro q hq
    by_cases hc : hasVitePlugins (config.plugins.getD []) ["vite:vue"] <;>
      simp [viteFinal, mergeConfig, hc, hq]
  · simp [viteFinal, mergeConfig, overrideEntries]
  · intro k v hk
    simp only [viteFinal, mergeConfig, overrideEntries, List.mem_append,
      List.mem_filter, List.any_cons, List.any_nil, Bool.or_false,
      List.mem_singleton, Prod.mk.injEq]
    constructor
    · rintro (⟨hmem, _⟩ | ⟨hvue, _⟩)
      · exact hmem
      · exact absurd hvue hk
    · intro hmem
      left
      refine ⟨hmem, ?_⟩
      simp
      intro hvk
      exact hk hvk.symm
  · simp [viteFinal, mergeConfig, overrideEntries]

/-- A concrete caller vite config with one plugin, one alias and one other
field. -/
def callerViteConfig : ViteConfig :=
  { plugins := some [{ name := "caller-plugin", payload := 7 }],
    aliasEntries := [("a", "b")],
    otherFields := [("css", "x")] }

/-- Witness for C8 at the concrete caller config. -/
theorem viteFinal_nondestructive_witness :
    (viteFinal callerViteConfig).plugins
      = some (callerViteConfig.plugins.getD []
          ++ [vuePluginDefault, vueComponentMetaPlugin]) :=
  (viteFinal_nondestructive callerViteConfig).1 (by decide)

lemma splitAtFirstChar_sound (sep : Char) :
    ∀ (cs t r : List Char), splitAtFirstChar sep cs = some (t, r) →
      cs = t ++ sep :: r ∧ sep ∉ t := by
  intro cs
  induction cs with
  | nil =>
    intro t r h
    simp [splitAtFirstChar] at h
  | cons c rest ih =>
    intro t r h
    by_cases hc : c = sep
    · subst hc
      rw [splitAtFirstChar, if_pos rfl] at h
      simp only [Option.some.injEq, Prod.mk.injEq] at h
      obtain ⟨ht, hr⟩ := h
      subst ht
      subst hr
      simp
    · rw [splitAtFirstChar, if_neg hc] at h
      rcases hsp : splitAtFirstChar sep rest with _ | ⟨t2, r2⟩
      · rw [hsp] at h
        simp at h
      · rw [hsp] at h
        simp only [Option.map_some', Option.some.injEq, Prod.mk.injEq] at h
        obtain ⟨ht, hr⟩ := h
        subst ht
        subst hr
        obtain ⟨hbody, hnot⟩ := ih t2 r2 hsp
        constructor
        · simp [hbody]
        · intro hmem
          rcases List.mem_cons.mp hmem with hm | hm
          · exact hc hm.symm
          · exact hnot hm

/-- Full characterization of `getVersionSpecifier`: either it falls back to
`(addon, undefined)`, or it splits the input at the first `@` after the
optional scope marker, with a non-empty name and a non-empty version. -/
lemma getVersionSpecifier_cases (cs : List Char) :
    getVersionSpecifier ⟨cs⟩ = (⟨cs⟩, none)
    ∨ ∃ n restv, getVersionSpecifier ⟨cs⟩ = (⟨n⟩, some ⟨restv⟩)
        ∧ cs = n ++ '@' :: restv ∧ restv ≠ [] ∧ n ≠ [] ∧ '@' ∉ scopeBody n := by
  cases cs with
  | nil => left; rfl
  | cons c rest =>
    by_cases hsc : c = '@'
    · subst hsc
      cases rest with
      | nil => left; rfl
      | cons b rest2 =>
        by_cases hb : b = '@'
        · subst hb
          left
          simp [getVersionSpecifier]
        · rcases hsp : splitAtFirstChar '@' (b :: rest2) with _ | ⟨t, restv⟩
          · left
            simp [getVersionSpecifier, hb, hsp]
          · by_cases hre : restv.isEmpty
            · left
              simp [getVersionSpecifier, hb, hsp, hre]
            · right
              obtain ⟨hbody, hnot⟩ := splitAtFirstChar_sound '@' (b :: rest2) t restv hsp
              refine ⟨'@' :: t, restv, ?_, ?_, ?_, ?_, ?_⟩
              · simp [getVersionSpecifier, hb, hsp, hre]
              · simp [hbody]
              · intro h
                subst h
                simp at hre
              · simp
              · simpa [scopeBody] using hnot
    · rcases hsp : splitAtFirstChar '@' (c :: rest) with _ | ⟨t, restv⟩
      · left
        simp [getVersionSpecifier, hsc, hsp]
      · by_cases hre : restv.isEmpty
        · left
          simp [getVersionSpecifier, hsc, hsp, hre]
        · right
          obtain ⟨hbody, hnot⟩ := splitAtFirstChar_sound '@' (c :: rest) t restv hsp
          have ht : t ≠ [] := by
            intro h
            subst h
            simp only [List.nil_append] at hbody
            exact hsc (List.head_eq_of_cons_eq hbody)
          refine ⟨t, restv, ?_, hbody, ?_, ht, ?_⟩
          · simp [getVersionSpecifier, hsc, hsp, hre]
          · intro h
            subst h
            simp at hre
          · cases t with
            | nil => exact absurd rfl ht
            | cons a t2 =>
              have ha : a ≠ '@' := by
                intro h
                exact hnot (h ▸ List.mem_cons_self a t2)
              simpa [scopeBody, ha] using hnot

/-- C3 (amended): for every non-empty input, `getVersionSpecifier` returns
a pair whose name component is non-empty, and whenever it returns a version
the input decomposes as `name ++ \x22@\x22 ++ version` with the split at the
FIRST `@` after the optional leading scope separator (the name contains no
further `@`), the version being non-empty.  (On the empty input the
returned name is empty, and the split is at the first, not the last,
`@`.) -/
theorem getVersionSpecifier_name_split (s : String) (hs : s ≠ "") :
    (getVersionSpecifier s).1 ≠ ""
    ∧ (∀ n v, getVersionSpecifier s = (n, some v) →
        s = n ++ "@" ++ v ∧ v ≠ "" ∧ '@' ∉ scopeBody n.data) := by
  obtain ⟨cs⟩ := s
  rcases getVersionSpecifier_cases cs with hcase | ⟨n, restv, heq, hsplit, hrv, hn, hnot⟩
  · rw [hcase]
    constructor
    · exact hs
    · intro n v h
      simp at h
  · rw [heq]
    constructor
    · intro h
      apply hn
      have hd := congrArg String.data h
      simpa using hd
    · intro n' v h
      simp only [Prod.mk.injEq, Option.some.injEq] at h
      obtain ⟨h1, h2⟩ := h
      subst h1
      subst h2
      refine ⟨?_, ?_, ?_⟩
      · apply String.ext
        simp [String.data_append, hsplit]
      · intro hv
        apply hrv
        have hd := congrArg String.data hv
        simpa using hd
      · exact hnot

/-- Counterexample for C3 as stated: the split is at the first `@` after
the scope prefix, not the last (`a@b@c` parses as `(a, b@c)`, not
`(a@b, c)`), and the empty input yields an empty name. -/
theorem getVersionSpecifier_last_at_cex :
    getVersionSpecifier "a@b@c" = ("a", some "b@c")
    ∧ (getVersionSpecifier "").1 = "" := by decide

/-- Witness for C3 at a concrete scoped specifier. -/
theorem getVersionSpecifier_name_split_witness :
    (getVersionSpecifier "@scope/name@1.0.0").1 ≠ "" :=
  (getVersionSpecifier_name_split "@scope/name@1.0.0" (by decide)).1

end Storybook
